import Mathlib

/-!
Verification of the dynamic template instantiation node.

The development shallowly embeds the node: the pure tag-unpacking
function is modelled as a Lean function over an ordered string-keyed
association map, and the stateful refresh, scheduling, tag-update and
destruction methods are modelled as explicit state transformers over a
node record together with a world record that tracks which produced
items have been destroyed and logs the externally visible effects
(template invocations, item destructions, child insertions).
-/

set_option maxHeartbeats 1000000

namespace DynTemplate

/-- A value stored in the tag map: either a single produced item or, for
the overflow tag, the tuple of remaining items. -/
inductive TagValue (α : Type) where
  | item : α → TagValue α
  | rest : List α → TagValue α
deriving DecidableEq, Repr

/-- The ordered string-keyed map used for the tagged object: an
association list kept in insertion order, with at most one entry per
key when built from the empty map. -/
abbrev ObjectDict (α : Type) := List (String × TagValue α)

/-- Dictionary assignment: replace the value at an existing key in
place, otherwise append the new binding at the end. This is the
semantics of item assignment on the ordered dictionary. -/
def odSet {α : Type} : ObjectDict α → String → TagValue α → ObjectDict α
  | [], k, v => [(k, v)]
  | p :: rest, k, v => if p.1 = k then (k, v) :: rest else p :: odSet rest k v

/-- Dictionary lookup: the value at the first entry whose key matches. -/
def odGet {α : Type} : ObjectDict α → String → Option (TagValue α)
  | [], _ => none
  | p :: rest, k => if p.1 = k then some p.2 else odGet rest k

/-- The loop over zipped tags and items which assigns each tag name to
the corresponding item in the tag map. -/
def assignTags {α : Type} : List (String × α) → ObjectDict α → ObjectDict α
  | [], d => d
  | (name, x) :: rest, d => assignTags rest (odSet d name (.item x))

/-- The two unpack failures the tag rebuild can raise: needMore n is
the failure whose message reads: need more than n values to unpack;
tooMany is the failure whose message reads: too many values to unpack. -/
inductive UnpackError where
  | needMore : Nat → UnpackError
  | tooMany : UnpackError
deriving DecidableEq, Repr

/-- The pure part of the tag rebuild: from the tag names, the overflow
tag name and the current items list, either an unpack failure or the
freshly built tag map. Translated directly from the source: raise
needMore when tags is non-empty and shorter than required, raise
tooMany when tags is non-empty, the overflow tag is empty and there
are extra items, otherwise assign each tag positionally and, when the
overflow tag is non-empty, assign it the remaining items. -/
def rebuild_tags {α : Type} (tags : List String) (startag : String)
    (items : List α) : Except UnpackError (ObjectDict α) :=
  if tags ≠ [] ∧ tags.length > items.length then
    .error (.needMore items.length)
  else if tags ≠ [] ∧ startag = "" ∧ items.length > tags.length then
    .error .tooMany
  else
    let d0 := assignTags (tags.zip items) ([] : ObjectDict α)
    let d1 := if startag ≠ "" then odSet d0 startag (.rest (items.drop tags.length)) else d0
    .ok d1

/-- Produced items are identified by numeric ids. -/
abbrev Item := Nat

/-- The positional argument tuple passed to the template. -/
abbrev ArgsV := List Nat

/-- The keyword data mapping passed to the intermediate callable. -/
abbrev DataV := List (String × Nat)

/-- The opaque template capability: invoking it with the positional
arguments yields either an exception message or an intermediate
callable; invoking that with the keyword data yields either an
exception message or the ordered list of produced items. -/
abbrev TemplateFun := ArgsV → Except String (DataV → Except String (List Item))

/-- The externally visible effects a node method can perform. -/
inductive Event where
  | templateCall : Event
  | destroy : Item → Event
  | insert : List Item → Event
deriving DecidableEq, Repr

/-- The world outside the node: the set of already destroyed items and
the ordered log of effects performed so far. -/
structure World where
  destroyed : List Item
  log : List Event
deriving DecidableEq, Repr

/-- The state of a dynamic template node. -/
structure Node where
  base : Option TemplateFun
  args : ArgsV
  tags : List String
  startag : String
  data : DataV
  tagged : ObjectDict Item
  update_task : Option Nat
  items : List Item
  parent : Option Unit

/-- Append one event to the world log. -/
def pushLog (w : World) (e : Event) : World :=
  { w with log := w.log ++ [e] }

/-- Clear the pending refresh task handle. -/
def clearTask (st : Node) : Node :=
  { st with update_task := none }

/-- The two-stage template call protocol: apply the template to the
positional arguments, then apply the intermediate to the keyword data. -/
def callTemplate (t : TemplateFun) (args : ArgsV) (data : DataV) :
    Except String (List Item) :=
  match t args with
  | .error e => .error e
  | .ok f => f data

/-- The outcome of the template invocation step of a refresh: the
produced item list when the base template is present and both stages
succeed, the empty list when the base template is absent, and the
propagated exception otherwise. -/
def templateResult (st : Node) : Except String (List Item) :=
  match st.base with
  | some t => callTemplate t st.args st.data
  | none => .ok []

/-- The logged effect of the template invocation step: when a base
template is present the call is logged, when it is absent no call is
made. -/
def logTemplate (st : Node) (w : World) : World :=
  match st.base with
  | some _ => pushLog w Event.templateCall
  | none => w

/-- The loop destroying the old items: every item of the list that is
not already destroyed is destroyed, in order; items already destroyed
are skipped. -/
def destroyOld (olds : List Item) (w : World) : World :=
  match olds with
  | [] => w
  | i :: rest =>
      if i ∈ w.destroyed then destroyOld rest w
      else destroyOld rest { destroyed := w.destroyed ++ [i], log := w.log ++ [Event.destroy i] }

/-- The stateful tag rebuild: run the pure rebuild on the current tag
names, overflow tag and items; on success replace the tagged map as a
whole and report success, on failure leave the node untouched and
propagate the unpack failure. -/
inductive RefreshErr where
  | templateErr : String → RefreshErr
  | noParent : RefreshErr
  | unpack : UnpackError → RefreshErr
deriving DecidableEq, Repr

/-- The stateful tag rebuild on a node. -/
def rebuild_tags_state (st : Node) : Except RefreshErr Unit × Node :=
  match rebuild_tags st.tags st.startag st.items with
  | .error e => (.error (.unpack e), st)
  | .ok d => (.ok (), { st with tagged := d })

/-- The tail of a refresh: store the new items, then rebuild the tag
map from them. On an unpack failure the items are already replaced
while the tagged map keeps its old value. -/
def finishRefresh (st : Node) (newItems : List Item) (w : World) :
    Except RefreshErr Unit × Node × World :=
  match rebuild_tags st.tags st.startag newItems with
  | .error e => (.error (.unpack e), { st with items := newItems }, w)
  | .ok d => (.ok (), { st with items := newItems, tagged := d }, w)

/-- The refresh method: clear the pending task handle, invoke the
template (the empty list when the base template is absent), destroy the
old items, insert the new items through the parent when the new list is
non-empty (failing when the node has no parent), store the new items
and rebuild the tag map. Exceptions propagate at the point they occur,
leaving the mutations already made in place. -/
def refresh (st : Node) (w : World) : Except RefreshErr Unit × Node × World :=
  match templateResult st with
  | .error msg => (.error (.templateErr msg), clearTask st, logTemplate st w)
  | .ok newItems =>
    if 0 < newItems.length then
      match st.parent with
      | none => (.error .noParent, clearTask st, destroyOld st.items (logTemplate st w))
      | some _ =>
        finishRefresh (clearTask st) newItems
          (pushLog (destroyOld st.items (logTemplate st w)) (Event.insert newItems))
    else finishRefresh (clearTask st) newItems (destroyOld st.items (logTemplate st w))

/-- The observer of the tag inputs: on a value-replacing change it
synchronously rebuilds the tag map from the current items; the world is
returned untouched since the rebuild performs no external effect. -/
def update_tags (st : Node) (changeType : String) (w : World) :
    Except RefreshErr Unit × Node × World :=
  if changeType = "update" then
    ((rebuild_tags_state st).1, (rebuild_tags_state st).2, w)
  else (.ok (), st, w)

/-- The observer of the instantiation inputs: on a value-replacing
change, schedule a refresh when none is pending, recording the handle
returned by the scheduler; otherwise do nothing. The boolean reports
whether a task was scheduled. -/
def schedule_refresh (st : Node) (changeType : String) (task : Nat) : Node × Bool :=
  if changeType = "update" then
    match st.update_task with
    | none => ({ st with update_task := some task }, true)
    | some _ => (st, false)
  else (st, false)

/-- A burst of dependency changes within one tick, applied in order
with no refresh running in between; the second component counts how
many refresh tasks were scheduled. -/
def applyChanges : Node → List (String × Nat) → Node × Nat
  | st, [] => (st, 0)
  | st, c :: cs =>
      let r := schedule_refresh st c.1 c.2
      let restr := applyChanges r.1 cs
      (restr.1, (if r.2 then 1 else 0) + restr.2)

/-- The destructor: release the keyword data, the tagged map and the
items reference; when a refresh task is pending, unschedule it before
discarding its handle. The second component is the task that was
unscheduled, when there was one. -/
def destroy (st : Node) : Node × Option Nat :=
  match st.update_task with
  | some t => ({ st with data := [], tagged := [], update_task := none, items := [] }, some t)
  | none => ({ st with data := [], tagged := [], items := [] }, none)

theorem odGet_odSet {α : Type} (d : ObjectDict α) (k k2 : String) (v : TagValue α) :
    odGet (odSet d k v) k2 = if k = k2 then some v else odGet d k2 := by
  induction d with
  | nil => simp only [odSet, odGet]
  | cons p rest ih =>
    by_cases hp : p.1 = k <;> by_cases hk : k = k2 <;>
      simp_all [odSet, odGet]

theorem odGet_assignTags_not_mem {α : Type} (ps : List (String × α)) (d : ObjectDict α)
    (k : String) (h : ∀ p ∈ ps, p.1 ≠ k) :
    odGet (assignTags ps d) k = odGet d k := by
  induction ps generalizing d with
  | nil => rfl
  | cons p rest ih =>
    obtain ⟨name, x⟩ := p
    simp only [assignTags]
    rw [ih _ (fun q hq => h q (List.mem_cons_of_mem _ hq)), odGet_odSet]
    have hne : name ≠ k := h (name, x) (List.mem_cons_self _ _)
    simp [hne]

theorem odGet_assignTags_at {α : Type} :
    ∀ (i : Nat) (ts : List String) (xs : List α) (d : ObjectDict α)
      (hi : i < ts.length) (hn : i < xs.length),
      ts.get ⟨i, hi⟩ ∉ ts.drop (i + 1) →
      odGet (assignTags (ts.zip xs) d) (ts.get ⟨i, hi⟩) =
        some (TagValue.item (xs.get ⟨i, hn⟩)) := by
  intro i
  induction i with
  | zero =>
    intro ts xs d hi hn hdrop
    cases ts with
    | nil => simp at hi
    | cons t ts2 =>
      cases xs with
      | nil => simp at hn
      | cons x xs2 =>
        simp only [List.zip_cons_cons, assignTags, List.get] at hdrop ⊢
        rw [odGet_assignTags_not_mem]
        · rw [odGet_odSet]; simp
        · intro p hp hpk
          have hmem := (List.of_mem_zip hp).1
          rw [hpk] at hmem
          simp only [List.drop_succ_cons, List.drop_zero] at hdrop
          exact hdrop hmem
  | succ i ih =>
    intro ts xs d hi hn hdrop
    cases ts with
    | nil => simp at hi
    | cons t ts2 =>
      cases xs with
      | nil => simp at hn
      | cons x xs2 =>
        simp only [List.zip_cons_cons, assignTags, List.get] at hdrop ⊢
        exact ih ts2 xs2 _ (Nat.lt_of_succ_lt_succ hi) (Nat.lt_of_succ_lt_succ hn)
          (by simpa using hdrop)

theorem rebuild_tags_ok_elim {α : Type} {tags : List String} {startag : String}
    {items : List α} {d : ObjectDict α}
    (h : rebuild_tags tags startag items = .ok d) :
    ¬(tags ≠ [] ∧ tags.length > items.length) ∧
    ¬(tags ≠ [] ∧ startag = "" ∧ items.length > tags.length) ∧
    d = (if startag ≠ "" then
          odSet (assignTags (tags.zip items) []) startag (.rest (items.drop tags.length))
         else assignTags (tags.zip items) []) := by
  unfold rebuild_tags at h
  split_ifs at h with h1 h2 h3
  · refine ⟨h1, h2, ?_⟩
    rw [if_pos h3]
    exact (Except.ok.inj h).symm
  · refine ⟨h1, h2, ?_⟩
    rw [if_neg h3]
    exact (Except.ok.inj h).symm

/-- C1: the tag rebuild raises the needMore failure, carrying the item
count, exactly when there is at least one tag and more tags than items;
raises the tooMany failure exactly when there is at least one tag, the
overflow tag is empty and there are more items than tags; and succeeds
in every other case. -/
theorem C1_rebuild_tags_outcomes {α : Type} (tags : List String) (startag : String)
    (items : List α) :
    (∀ m : Nat, rebuild_tags tags startag items = .error (.needMore m) ↔
      (m = items.length ∧ 0 < tags.length ∧ tags.length > items.length)) ∧
    (rebuild_tags tags startag items = .error .tooMany ↔
      (0 < tags.length ∧ startag = "" ∧ items.length > tags.length)) ∧
    ((∃ d, rebuild_tags tags startag items = .ok d) ↔
      (¬(0 < tags.length ∧ tags.length > items.length) ∧
       ¬(0 < tags.length ∧ startag = "" ∧ items.length > tags.length))) := by
  unfold rebuild_tags
  split_ifs with h1 h2
  · have hpos : 0 < tags.length := List.length_pos.mpr h1.1
    have hgt := h1.2
    refine ⟨fun m => ?_, ?_, ?_⟩
    · simp only [Except.error.injEq, UnpackError.needMore.injEq]
      constructor
      · intro h; exact ⟨h.symm, hpos, hgt⟩
      · intro h; exact h.1.symm
    · constructor
      · intro h; simp at h
      · intro h; omega
    · constructor
      · rintro ⟨d, h⟩; cases h
      · intro h; exact absurd ⟨hpos, hgt⟩ h.1
  · have hpos : 0 < tags.length := List.length_pos.mpr h2.1
    refine ⟨fun m => ?_, ?_, ?_⟩
    · constructor
      · intro h; simp at h
      · intro h
        exact absurd ⟨h2.1, h.2.2⟩ h1
    · constructor
      · intro _; exact ⟨hpos, h2.2.1, h2.2.2⟩
      · intro _; rfl
    · constructor
      · rintro ⟨d, h⟩; cases h
      · intro h; exact absurd ⟨hpos, h2.2.1, h2.2.2⟩ h.2
  · refine ⟨fun m => ?_, ?_, ?_⟩
    · constructor
      · intro h; cases h
      · intro h
        exact absurd ⟨List.length_pos.mp h.2.1, h.2.2⟩ h1
    · constructor
      · intro h; cases h
      · intro h
        exact absurd ⟨List.length_pos.mp h.1, h.2.1, h.2.2⟩ h2
    · constructor
      · intro _
        refine ⟨fun h => h1 ⟨List.length_pos.mp h.1, h.2⟩,
                fun h => h2 ⟨List.length_pos.mp h.1, h.2.1, h.2.2⟩⟩
      · intro _; exact ⟨_, rfl⟩
  · refine ⟨fun m => ?_, ?_, ?_⟩
    · constructor
      · intro h; cases h
      · intro h
        exact absurd ⟨List.length_pos.mp h.2.1, h.2.2⟩ h1
    · constructor
      · intro h; cases h
      · intro h
        exact absurd ⟨List.length_pos.mp h.1, h.2.1, h.2.2⟩ h2
    · constructor
      · intro _
        refine ⟨fun h => h1 ⟨List.length_pos.mp h.1, h.2⟩,
                fun h => h2 ⟨List.length_pos.mp h.1, h.2.1, h.2.2⟩⟩
      · intro _; exact ⟨_, rfl⟩

/-- C2 as frozen is false on the code: with duplicate tag names the
later positional assignment overwrites the earlier one, so on tags a, a
with items 0, 1 the rebuild succeeds but the resulting map does not
bind the first tag occurrence to the first item. -/
theorem C2_counterexample :
    rebuild_tags ["a", "a"] "" ([0, 1] : List Item) = .ok [("a", TagValue.item 1)] ∧
    odGet [("a", TagValue.item 1)] "a" ≠ some (TagValue.item (0 : Item)) := by
  constructor
  · rfl
  · decide

/-- C2 (amended): on a successful rebuild the resulting map binds each
tag whose name does not recur later in the tag list and differs from a
non-empty overflow tag to the item at its index; a non-empty overflow
tag is bound to the items beyond the fixed tags; with no tags and no
overflow tag the map is empty; and the stateful rebuild replaces the
tagged map with the freshly built one as a whole. -/
theorem C2_rebuild_tags_bindings {α : Type} (tags : List String) (startag : String)
    (items : List α) (d : ObjectDict α)
    (h : rebuild_tags tags startag items = .ok d) :
    (∀ (i : Nat) (hi : i < tags.length),
      tags.get ⟨i, hi⟩ ∉ tags.drop (i + 1) →
      (startag = "" ∨ tags.get ⟨i, hi⟩ ≠ startag) →
      ∃ (hn : i < items.length),
        odGet d (tags.get ⟨i, hi⟩) = some (TagValue.item (items.get ⟨i, hn⟩))) ∧
    (startag ≠ "" → odGet d startag = some (TagValue.rest (items.drop tags.length))) ∧
    (tags = [] → startag = "" → d = []) ∧
    (∀ (st : Node) (d2 : ObjectDict Item),
      rebuild_tags st.tags st.startag st.items = .ok d2 →
      rebuild_tags_state st = (.ok (), { st with tagged := d2 })) := by
  obtain ⟨h1, _, hd⟩ := rebuild_tags_ok_elim h
  refine ⟨?_, ?_, ?_, ?_⟩
  · intro i hi hdrop hst
    have htagsne : tags ≠ [] :=
      List.ne_nil_of_length_pos (Nat.lt_of_le_of_lt (Nat.zero_le i) hi)
    have hngt : ¬(tags.length > items.length) := fun hg => h1 ⟨htagsne, hg⟩
    have hn : i < items.length := by omega
    refine ⟨hn, ?_⟩
    rw [hd]
    by_cases hs0 : startag = ""
    · simp only [hs0, ne_eq, not_true_eq_false, if_false]
      exact odGet_assignTags_at i tags items [] hi hn hdrop
    · have hsne2 : tags.get ⟨i, hi⟩ ≠ startag := by
        rcases hst with hse | hne2
        · exact absurd hse hs0
        · exact hne2
      rw [if_pos hs0, odGet_odSet, if_neg (fun heq => hsne2 heq.symm)]
      exact odGet_assignTags_at i tags items [] hi hn hdrop
  · intro hsne
    rw [hd, if_pos hsne, odGet_odSet, if_pos rfl]
  · intro ht hs
    subst ht
    subst hs
    rw [hd]
    simp [assignTags]
  · intro st d2 h2x
    unfold rebuild_tags_state
    rw [h2x]

/-- Witness for the amended C2 at a concrete input: with tags a, b,
overflow tag r and items 10, 20, 30 the map binds a to the first item
and r to the remaining items. -/
theorem C2_witness :
    (∃ hn : 0 < ([10, 20, 30] : List Item).length,
       odGet [("a", TagValue.item 10), ("b", TagValue.item 20), ("r", TagValue.rest [30])] "a" =
         some (TagValue.item (([10, 20, 30] : List Item).get ⟨0, hn⟩))) ∧
    odGet [("a", TagValue.item 10), ("b", TagValue.item 20), ("r", TagValue.rest [30])] "r" =
      some (TagValue.rest (([10, 20, 30] : List Item).drop 2)) := by
  have h : rebuild_tags ["a", "b"] "r" ([10, 20, 30] : List Item) =
      .ok [("a", TagValue.item 10), ("b", TagValue.item 20), ("r", TagValue.rest [30])] := by
    rfl
  have hc := C2_rebuild_tags_bindings ["a", "b"] "r" ([10, 20, 30] : List Item) _ h
  exact ⟨hc.1 0 (by decide) (by decide) (Or.inr (by decide)), hc.2.1 (by decide)⟩

theorem destroyOld_spec (olds : List Item) :
    ∀ w : World, ∃ ds : List Event,
      (destroyOld olds w).log = w.log ++ ds ∧
      (∀ e ∈ ds, ∃ i, i ∈ olds ∧ i ∉ w.destroyed ∧ e = Event.destroy i) ∧
      (∀ i, i ∈ olds → i ∉ w.destroyed → Event.destroy i ∈ ds) ∧
      (∀ i, i ∈ w.destroyed → i ∈ (destroyOld olds w).destroyed) ∧
      (∀ i, i ∈ olds → i ∈ (destroyOld olds w).destroyed) := by
  induction olds with
  | nil =>
    intro w
    refine ⟨[], by simp [destroyOld], by simp, by simp, ?_, by simp⟩
    intro i hi
    simpa [destroyOld] using hi
  | cons a rest ih =>
    intro w
    by_cases ha : a ∈ w.destroyed
    · obtain ⟨ds, hlog, helems, hmem, hmono, hall⟩ := ih w
      refine ⟨ds, ?_, ?_, ?_, ?_, ?_⟩
      · simpa [destroyOld, ha] using hlog
      · intro e he
        obtain ⟨i, hi1, hi2, hi3⟩ := helems e he
        exact ⟨i, List.mem_cons_of_mem _ hi1, hi2, hi3⟩
      · intro i hi hnd
        rcases List.mem_cons.mp hi with rfl | hi2
        · exact absurd ha hnd
        · exact hmem i hi2 hnd
      · intro i hi
        simpa [destroyOld, ha] using hmono i hi
      · intro i hi
        rcases List.mem_cons.mp hi with rfl | hi2
        · simpa [destroyOld, ha] using hmono i ha
        · simpa [destroyOld, ha] using hall i hi2
    · have hstep : destroyOld (a :: rest) w =
          destroyOld rest { destroyed := w.destroyed ++ [a], log := w.log ++ [Event.destroy a] } := by
        simp [destroyOld, ha]
      obtain ⟨ds, hlog, helems, hmem, hmono, hall⟩ :=
        ih { destroyed := w.destroyed ++ [a], log := w.log ++ [Event.destroy a] }
      refine ⟨Event.destroy a :: ds, ?_, ?_, ?_, ?_, ?_⟩
      · rw [hstep, hlog]
        simp
      · intro e he
        rcases List.mem_cons.mp he with rfl | he2
        · exact ⟨a, List.mem_cons_self _ _, ha, rfl⟩
        · obtain ⟨i, hi1, hi2, hi3⟩ := helems e he2
          have hi2w : i ∉ w.destroyed := fun hc => hi2 (by simp [hc])
          exact ⟨i, List.mem_cons_of_mem _ hi1, hi2w, hi3⟩
      · intro i hi hnd
        rcases List.mem_cons.mp hi with rfl | hi2
        · exact List.mem_cons_self _ _
        · by_cases hiw1 : i ∈ w.destroyed ++ [a]
          · have hia : i = a := by
              rcases List.mem_append.mp hiw1 with hl | hr
              · exact absurd hl hnd
              · simpa using hr
            rw [hia]
            exact List.mem_cons_self _ _
          · exact List.mem_cons_of_mem _ (hmem i hi2 hiw1)
      · intro i hi
        rw [hstep]
        exact hmono i (by simp [hi])
      · intro i hi
        rw [hstep]
        rcases List.mem_cons.mp hi with rfl | hi2
        · exact hmono i (by simp)
        · exact hall i hi2

theorem logTemplate_spec (st : Node) (w : World) :
    ∃ pre : List Event, (∀ e ∈ pre, e = Event.templateCall) ∧
      logTemplate st w = { w with log := w.log ++ pre } := by
  cases hb : st.base with
  | none => exact ⟨[], by simp, by simp [logTemplate, hb]⟩
  | some t => exact ⟨[Event.templateCall], by simp, by simp [logTemplate, hb, pushLog]⟩

theorem logTemplate_destroyed (st : Node) (w : World) :
    (logTemplate st w).destroyed = w.destroyed := by
  cases hb : st.base <;> simp [logTemplate, hb, pushLog]

theorem finishRefresh_err {st : Node} {ni : List Item} {w : World} {e : UnpackError}
    (hx : rebuild_tags st.tags st.startag ni = .error e) :
    finishRefresh st ni w = (.error (.unpack e), { st with items := ni }, w) := by
  unfold finishRefresh
  rw [hx]

theorem finishRefresh_ok {st : Node} {ni : List Item} {w : World} {d : ObjectDict Item}
    (hx : rebuild_tags st.tags st.startag ni = .ok d) :
    finishRefresh st ni w = (.ok (), { st with items := ni, tagged := d }, w) := by
  unfold finishRefresh
  rw [hx]

theorem refresh_cases (st : Node) (w : World) :
    (∃ msg, templateResult st = .error msg ∧
      refresh st w = (.error (.templateErr msg), clearTask st, logTemplate st w)) ∨
    (∃ ni, templateResult st = .ok ni ∧ ni ≠ [] ∧ st.parent = none ∧
      refresh st w = (.error .noParent, clearTask st, destroyOld st.items (logTemplate st w))) ∨
    (∃ ni, templateResult st = .ok ni ∧ ni ≠ [] ∧ st.parent ≠ none ∧
      refresh st w = finishRefresh (clearTask st) ni
        (pushLog (destroyOld st.items (logTemplate st w)) (Event.insert ni))) ∨
    (templateResult st = .ok [] ∧
      refresh st w = finishRefresh (clearTask st) [] (destroyOld st.items (logTemplate st w))) := by
  cases ht : templateResult st with
  | error msg =>
    left
    refine ⟨msg, rfl, ?_⟩
    unfold refresh
    rw [ht]
  | ok ni =>
    by_cases hlen : 0 < ni.length
    · have hne : ni ≠ [] := List.ne_nil_of_length_pos hlen
      cases hp : st.parent with
      | none =>
        right; left
        refine ⟨ni, rfl, hne, rfl, ?_⟩
        unfold refresh
        rw [ht]
        simp [hlen, hp]
      | some u =>
        right; right; left
        refine ⟨ni, rfl, hne, by simp [hp], ?_⟩
        unfold refresh
        rw [ht]
        simp [hlen, hp]
    · right; right; right
      have hnil : ni = [] := by
        cases ni with
        | nil => rfl
        | cons x xs => simp at hlen
      subst hnil
      refine ⟨rfl, ?_⟩
      unfold refresh
      rw [ht]
      simp

theorem finishRefresh_world (st : Node) (ni : List Item) (w : World) :
    (finishRefresh st ni w).2.2 = w := by
  unfold finishRefresh
  split <;> rfl

theorem finishRefresh_items (st : Node) (ni : List Item) (w : World) :
    (finishRefresh st ni w).2.1.items = ni := by
  unfold finishRefresh
  split <;> rfl

theorem finishRefresh_task (st : Node) (ni : List Item) (w : World) :
    (finishRefresh st ni w).2.1.update_task = st.update_task := by
  unfold finishRefresh
  split <;> rfl

theorem refresh_clears_task (st : Node) (w : World) :
    (refresh st w).2.1.update_task = none := by
  rcases refresh_cases st w with ⟨msg, _, hr⟩ | ⟨ni, _, _, _, hr⟩ | ⟨ni, _, _, _, hr⟩ | ⟨_, hr⟩ <;>
    rw [hr]
  · rfl
  · rfl
  · rw [finishRefresh_task]; rfl
  · rw [finishRefresh_task]; rfl

theorem applyChanges_pending (cs : List (String × Nat)) :
    ∀ st : Node, st.update_task ≠ none → applyChanges st cs = (st, 0) := by
  induction cs with
  | nil => intro st _; rfl
  | cons c rest ih =>
    intro st h
    have hs : schedule_refresh st c.1 c.2 = (st, false) := by
      unfold schedule_refresh
      split_ifs with hcu
      · cases hu : st.update_task with
        | none => exact absurd hu h
        | some x => rfl
      · rfl
    simp [applyChanges, hs, ih st h]

/-- Auxiliary description of the world component of a refresh whose
template invocation succeeded: its destruction state is that of the
destroy loop, and its log extends it by insertion events only. -/
theorem refresh_world_ok (st : Node) (w : World) (newItems : List Item)
    (h : templateResult st = .ok newItems) :
    ∃ post : List Event, (∀ e ∈ post, e = Event.insert newItems) ∧
      (refresh st w).2.2.destroyed = (destroyOld st.items (logTemplate st w)).destroyed ∧
      (refresh st w).2.2.log = (destroyOld st.items (logTemplate st w)).log ++ post := by
  rcases refresh_cases st w with ⟨msg, ht, _⟩ | ⟨ni, ht, _, _, hr⟩ | ⟨ni, ht, _, _, hr⟩ | ⟨ht, hr⟩
  · rw [h] at ht; cases ht
  · rw [h] at ht
    injection ht with ht
    subst ht
    refine ⟨[], by simp, ?_, ?_⟩ <;> rw [hr]
    exact (List.append_nil _).symm
  · rw [h] at ht
    injection ht with ht
    subst ht
    refine ⟨[Event.insert newItems], by simp, ?_, ?_⟩
    · rw [hr, finishRefresh_world]
      rfl
    · rw [hr, finishRefresh_world]
      rfl
  · rw [h] at ht
    injection ht with ht
    refine ⟨[], by simp, ?_, ?_⟩
    · rw [hr, finishRefresh_world]
    · rw [hr, finishRefresh_world]
      exact (List.append_nil _).symm

/-- C3: when the two-stage template invocation raises, the refresh
propagates the error and leaves the node items, the tagged map and the
world destruction state exactly as they were before the attempt; only
the pending task handle is cleared and the attempted call is logged. -/
theorem C3_refresh_template_error (st : Node) (w : World) (t : TemplateFun) (msg : String)
    (hb : st.base = some t) (hc : callTemplate t st.args st.data = .error msg) :
    refresh st w = (.error (.templateErr msg), { st with update_task := none },
      { w with log := w.log ++ [Event.templateCall] }) := by
  have ht : templateResult st = .error msg := by
    unfold templateResult
    rw [hb]
    exact hc
  have hlog : logTemplate st w = pushLog w Event.templateCall := by
    unfold logTemplate
    rw [hb]
  unfold refresh
  rw [ht, hlog]
  rfl

/-- Witness for C3: a template whose first-stage call raises leaves a
node with a pending task and one item untouched apart from the cleared
handle. -/
theorem C3_witness :
    refresh
      { base := some (fun _ => .error "boom"), args := [], tags := [], startag := "",
        data := [], tagged := [], update_task := some 7, items := [3], parent := none }
      { destroyed := [], log := [] } =
      (.error (.templateErr "boom"),
       { base := some (fun _ => .error "boom"), args := [], tags := [], startag := "",
         data := [], tagged := [], update_task := none, items := [3], parent := none },
       { destroyed := [], log := [Event.templateCall] }) :=
  C3_refresh_template_error _ _ (fun _ => .error "boom") "boom" rfl rfl

/-- C4: a refresh task is scheduled only when none is pending; a burst
of one or more value-replacing changes within one tick schedules
exactly one task, the one recorded at the first change; and every
refresh clears the pending handle, so a change arriving during the
refresh schedules a fresh task instead of being dropped. -/
theorem C4_schedule_coalesces :
    (∀ (st : Node) (c : String) (t h : Nat), st.update_task = some h →
      schedule_refresh st c t = (st, false)) ∧
    (∀ (st : Node) (c0 : String × Nat) (rest : List (String × Nat)),
      st.update_task = none → (∀ c ∈ c0 :: rest, c.1 = "update") →
      (applyChanges st (c0 :: rest)).2 = 1 ∧
      (applyChanges st (c0 :: rest)).1.update_task = some c0.2) ∧
    (∀ (st : Node) (w : World), (refresh st w).2.1.update_task = none) ∧
    (∀ (st : Node) (w : World) (t : Nat),
      schedule_refresh (refresh st w).2.1 "update" t =
        ({ (refresh st w).2.1 with update_task := some t }, true)) := by
  refine ⟨?_, ?_, refresh_clears_task, ?_⟩
  · intro st c t h hu
    unfold schedule_refresh
    split_ifs with hcu
    · rw [hu]
    · rfl
  · intro st c0 rest hnone hall
    have hc0 : c0.1 = "update" := hall c0 (List.mem_cons_self _ _)
    have hs : schedule_refresh st c0.1 c0.2 = ({ st with update_task := some c0.2 }, true) := by
      unfold schedule_refresh
      rw [if_pos hc0, hnone]
    have hrest : applyChanges { st with update_task := some c0.2 } rest =
        ({ st with update_task := some c0.2 }, 0) :=
      applyChanges_pending rest _ (by simp)
    constructor <;> simp [applyChanges, hs, hrest]
  · intro st w t
    unfold schedule_refresh
    rw [if_pos rfl, refresh_clears_task]

/-- Witness for C4: two value-replacing changes on a node with no
pending task schedule exactly one refresh, recording the handle of the
first. -/
theorem C4_witness :
    (applyChanges
      { base := none, args := [], tags := [], startag := "", data := [], tagged := [],
        update_task := none, items := [], parent := none }
      [("update", 5), ("update", 6)]).2 = 1 ∧
    (applyChanges
      { base := none, args := [], tags := [], startag := "", data := [], tagged := [],
        update_task := none, items := [], parent := none }
      [("update", 5), ("update", 6)]).1.update_task = some 5 :=
  C4_schedule_coalesces.2.1 _ ("update", 5) [("update", 6)] rfl (by decide)

/-- C5: on every refresh whose template invocation succeeds, or whose
base is absent, every old item not already destroyed is destroyed and
logged, items already destroyed are skipped rather than destroyed
again, and all destructions precede the insertion of the new items. -/
theorem C5_refresh_destroys_old (st : Node) (w : World) (newItems : List Item)
    (h : templateResult st = .ok newItems) :
    (∀ i ∈ st.items, i ∈ (refresh st w).2.2.destroyed) ∧
    (∀ i ∈ st.items, i ∉ w.destroyed →
      Event.destroy i ∈ (refresh st w).2.2.log.drop w.log.length) ∧
    (∀ i ∈ w.destroyed, Event.destroy i ∉ (refresh st w).2.2.log.drop w.log.length) ∧
    (∃ pre ds post, (refresh st w).2.2.log = w.log ++ (pre ++ ds ++ post) ∧
      (∀ e ∈ pre, e = Event.templateCall) ∧
      (∀ e ∈ ds, ∃ i, i ∈ st.items ∧ i ∉ w.destroyed ∧ e = Event.destroy i) ∧
      (∀ e ∈ post, e = Event.insert newItems)) := by
  obtain ⟨pre, hpre, hw1⟩ := logTemplate_spec st w
  obtain ⟨ds, hlog, helems, hmem, _, hall⟩ := destroyOld_spec st.items (logTemplate st w)
  obtain ⟨post, hpost, hdes, hlg⟩ := refresh_world_ok st w newItems h
  have hw1d : (logTemplate st w).destroyed = w.destroyed := logTemplate_destroyed st w
  have hlogfull : (refresh st w).2.2.log = w.log ++ (pre ++ ds ++ post) := by
    rw [hlg, hlog, hw1]
    simp
  have hdrop : (refresh st w).2.2.log.drop w.log.length = pre ++ ds ++ post := by
    rw [hlogfull]
    exact List.drop_left _ _
  refine ⟨?_, ?_, ?_, pre, ds, post, hlogfull, hpre, ?_, hpost⟩
  · intro i hi
    rw [hdes]
    exact hall i hi
  · intro i hi hnd
    rw [hdrop]
    have : Event.destroy i ∈ ds := hmem i hi (by rw [hw1d]; exact hnd)
    exact List.mem_append.mpr (Or.inl (List.mem_append.mpr (Or.inr this)))
  · intro i hi
    rw [hdrop]
    intro hin
    rcases List.mem_append.mp hin with hin2 | hin3
    · rcases List.mem_append.mp hin2 with hin4 | hin5
      · exact absurd (hpre _ hin4) (by simp)
      · obtain ⟨j, _, hj2, hj3⟩ := helems _ hin5
        rw [hw1d] at hj2
        have : j = i := by
          have := hj3
          injection hj3.symm
        rw [this] at hj2
        exact hj2 hi
    · exact absurd (hpost _ hin3) (by simp)
  · intro e he
    obtain ⟨i, hi1, hi2, hi3⟩ := helems e he
    rw [hw1d] at hi2
    exact ⟨i, hi1, hi2, hi3⟩

/-- Witness for C5: with no base template, an old item not yet
destroyed is destroyed and logged, while an old item already destroyed
by another path is skipped. -/
theorem C5_witness :
    (1 : Item) ∈ (refresh
      { base := none, args := [], tags := [], startag := "", data := [], tagged := [],
        update_task := none, items := [1, 2], parent := none }
      { destroyed := [2], log := [] }).2.2.destroyed ∧
    Event.destroy 1 ∈ ((refresh
      { base := none, args := [], tags := [], startag := "", data := [], tagged := [],
        update_task := none, items := [1, 2], parent := none }
      { destroyed := [2], log := [] }).2.2.log.drop 0) ∧
    Event.destroy 2 ∉ ((refresh
      { base := none, args := [], tags := [], startag := "", data := [], tagged := [],
        update_task := none, items := [1, 2], parent := none }
      { destroyed := [2], log := [] }).2.2.log.drop 0) := by
  have h := C5_refresh_destroys_old
    { base := none, args := [], tags := [], startag := "", data := [], tagged := [],
      update_task := none, items := [1, 2], parent := none }
    { destroyed := [2], log := [] } [] rfl
  exact ⟨h.1 1 (by decide), h.2.1 1 (by decide) (by decide), h.2.2.1 2 (by decide)⟩

/-- Every old item is recorded as destroyed after a refresh whose
template invocation succeeded. -/
theorem refresh_old_destroyed (st : Node) (w : World) (ni : List Item)
    (h : templateResult st = .ok ni) :
    ∀ i ∈ st.items, i ∈ (refresh st w).2.2.destroyed := by
  obtain ⟨post, _, hdes, _⟩ := refresh_world_ok st w ni h
  obtain ⟨ds, _, _, _, _, hall⟩ := destroyOld_spec st.items (logTemplate st w)
  intro i hi
  rw [hdes]
  exact hall i hi

/-- C6: with no base template a refresh sets the items to the empty
list, issues no insertion call to the parent, and derives the tagged
map from the empty item list, succeeding or failing exactly as the
rebuild on the empty list does. -/
theorem C6_refresh_no_base (st : Node) (w : World) (hb : st.base = none) :
    (refresh st w).2.1.items = [] ∧
    (∃ ds, (refresh st w).2.2.log = w.log ++ ds ∧ ∀ e ∈ ds, ∃ i, e = Event.destroy i) ∧
    (∀ d, rebuild_tags st.tags st.startag ([] : List Item) = .ok d →
      (refresh st w).1 = .ok () ∧ (refresh st w).2.1.tagged = d) ∧
    (∀ e, rebuild_tags st.tags st.startag ([] : List Item) = .error e →
      (refresh st w).1 = .error (.unpack e) ∧ (refresh st w).2.1.tagged = st.tagged) := by
  have ht : templateResult st = .ok [] := by
    unfold templateResult
    rw [hb]
  have hlg : logTemplate st w = w := by
    unfold logTemplate
    rw [hb]
  have hr : refresh st w = finishRefresh (clearTask st) [] (destroyOld st.items w) := by
    unfold refresh
    rw [ht, hlg]
    simp
  refine ⟨?_, ?_, ?_, ?_⟩
  · rw [hr, finishRefresh_items]
  · obtain ⟨ds, hl, helems, _, _, _⟩ := destroyOld_spec st.items w
    refine ⟨ds, ?_, ?_⟩
    · rw [hr, finishRefresh_world]
      exact hl
    · intro e he
      obtain ⟨i, _, _, h3⟩ := helems e he
      exact ⟨i, h3⟩
  · intro d hok
    have hokc : rebuild_tags (clearTask st).tags (clearTask st).startag ([] : List Item) = .ok d := hok
    rw [hr, finishRefresh_ok hokc]
    exact ⟨rfl, rfl⟩
  · intro e herr
    have herrc : rebuild_tags (clearTask st).tags (clearTask st).startag ([] : List Item) = .error e := herr
    rw [hr, finishRefresh_err herrc]
    exact ⟨rfl, rfl⟩

/-- Witness for C6: a node with no base, one stale item, no tags and no
parent refreshes to an empty item list and an empty tag map. -/
theorem C6_witness :
    (refresh
      { base := none, args := [], tags := [], startag := "", data := [],
        tagged := [("x", TagValue.item 9)], update_task := none, items := [5], parent := none }
      { destroyed := [], log := [] }).2.1.items = [] ∧
    (refresh
      { base := none, args := [], tags := [], startag := "", data := [],
        tagged := [("x", TagValue.item 9)], update_task := none, items := [5], parent := none }
      { destroyed := [], log := [] }).1 = .ok () ∧
    (refresh
      { base := none, args := [], tags := [], startag := "", data := [],
        tagged := [("x", TagValue.item 9)], update_task := none, items := [5], parent := none }
      { destroyed := [], log := [] }).2.1.tagged = [] := by
  have h := C6_refresh_no_base
    { base := none, args := [], tags := [], startag := "", data := [],
      tagged := [("x", TagValue.item 9)], update_task := none, items := [5], parent := none }
    { destroyed := [], log := [] } rfl
  exact ⟨h.1, (h.2.2.1 [] rfl).1, (h.2.2.1 [] rfl).2⟩

/-- C7: a value-replacing change to the tag inputs synchronously
rebuilds the tag map from the current items and changes nothing else:
the world is untouched, so no template call, destruction or insertion
happens, every other node field keeps its value, the tagged map is
replaced on success and kept on failure, and an unpack failure
propagates. -/
theorem C7_update_tags_only (st : Node) (w : World) (c : String) (hc : c = "update") :
    (update_tags st c w).2.2 = w ∧
    (update_tags st c w).2.1.items = st.items ∧
    (update_tags st c w).2.1.base = st.base ∧
    (update_tags st c w).2.1.args = st.args ∧
    (update_tags st c w).2.1.data = st.data ∧
    (update_tags st c w).2.1.tags = st.tags ∧
    (update_tags st c w).2.1.startag = st.startag ∧
    (update_tags st c w).2.1.update_task = st.update_task ∧
    (update_tags st c w).2.1.parent = st.parent ∧
    (∀ d, rebuild_tags st.tags st.startag st.items = .ok d →
      (update_tags st c w).1 = .ok () ∧ (update_tags st c w).2.1.tagged = d) ∧
    (∀ e, rebuild_tags st.tags st.startag st.items = .error e →
      (update_tags st c w).1 = .error (.unpack e) ∧ (update_tags st c w).2.1.tagged = st.tagged) := by
  subst hc
  unfold update_tags
  rw [if_pos rfl]
  unfold rebuild_tags_state
  cases hx : rebuild_tags st.tags st.startag st.items with
  | error e =>
    refine ⟨rfl, rfl, rfl, rfl, rfl, rfl, rfl, rfl, rfl, ?_, ?_⟩
    · intro d hd
      exact Except.noConfusion hd
    · intro e2 he2
      injection he2 with he2
      subst he2
      exact ⟨rfl, rfl⟩
  | ok d =>
    refine ⟨rfl, rfl, rfl, rfl, rfl, rfl, rfl, rfl, rfl, ?_, ?_⟩
    · intro d2 hd2
      injection hd2 with hd2
      subst hd2
      exact ⟨rfl, rfl⟩
    · intro e2 he2
      exact Except.noConfusion he2

/-- Witness for C7: a tag change on a node with one item and one tag
rebuilds the map from the current item, touching nothing else. -/
theorem C7_witness :
    (update_tags
      { base := none, args := [], tags := ["a"], startag := "", data := [], tagged := [],
        update_task := none, items := [4], parent := none }
      "update" { destroyed := [], log := [] }).2.2 = { destroyed := [], log := [] } ∧
    (update_tags
      { base := none, args := [], tags := ["a"], startag := "", data := [], tagged := [],
        update_task := none, items := [4], parent := none }
      "update" { destroyed := [], log := [] }).2.1.items = [4] ∧
    (update_tags
      { base := none, args := [], tags := ["a"], startag := "", data := [], tagged := [],
        update_task := none, items := [4], parent := none }
      "update" { destroyed := [], log := [] }).1 = .ok () ∧
    (update_tags
      { base := none, args := [], tags := ["a"], startag := "", data := [], tagged := [],
        update_task := none, items := [4], parent := none }
      "update" { destroyed := [], log := [] }).2.1.tagged = [("a", TagValue.item 4)] := by
  obtain ⟨h1, h2, _, _, _, _, _, _, _, hok, _⟩ := C7_update_tags_only
    { base := none, args := [], tags := ["a"], startag := "", data := [], tagged := [],
      update_task := none, items := [4], parent := none }
    { destroyed := [], log := [] } "update" rfl
  exact ⟨h1, h2, (hok [("a", TagValue.item 4)] rfl).1, (hok [("a", TagValue.item 4)] rfl).2⟩

/-- C8: when a refresh fails with an unpack error from the tag rebuild,
the template invocation had succeeded, the old items were destroyed and
the items field already holds the new list while the tagged map keeps
its old value, a momentarily inconsistent pair; and the tagged map is
replaced only by a refresh that returns success. -/
theorem C8_refresh_unpack_inconsistency (st : Node) (w : World) :
    (∀ e, (refresh st w).1 = .error (.unpack e) →
      ∃ ni, templateResult st = .ok ni ∧
        rebuild_tags st.tags st.startag ni = .error e ∧
        (refresh st w).2.1.items = ni ∧
        (refresh st w).2.1.tagged = st.tagged ∧
        (∀ i ∈ st.items, i ∈ (refresh st w).2.2.destroyed)) ∧
    ((refresh st w).2.1.tagged ≠ st.tagged → (refresh st w).1 = .ok ()) := by
  rcases refresh_cases st w with ⟨msg, ht, hr⟩ | ⟨ni, ht, hne, hp, hr⟩ |
    ⟨ni, ht, hne, hp, hr⟩ | ⟨ht, hr⟩
  · constructor
    · intro e he
      rw [hr] at he
      simp at he
    · intro hne2
      rw [hr] at hne2
      exact absurd rfl hne2
  · constructor
    · intro e he
      rw [hr] at he
      simp at he
    · intro hne2
      rw [hr] at hne2
      exact absurd rfl hne2
  · cases hx : rebuild_tags st.tags st.startag ni with
    | error e0 =>
      have hxc : rebuild_tags (clearTask st).tags (clearTask st).startag ni = .error e0 := hx
      constructor
      · intro e he
        rw [hr, finishRefresh_err hxc] at he
        simp only [Except.error.injEq, RefreshErr.unpack.injEq] at he
        subst he
        refine ⟨ni, ht, hx, ?_, ?_, refresh_old_destroyed st w ni ht⟩
        · rw [hr, finishRefresh_err hxc]
        · rw [hr, finishRefresh_err hxc]
          rfl
      · intro hne2
        rw [hr, finishRefresh_err hxc] at hne2
        exact absurd rfl hne2
    | ok d =>
      have hxc : rebuild_tags (clearTask st).tags (clearTask st).startag ni = .ok d := hx
      constructor
      · intro e he
        rw [hr, finishRefresh_ok hxc] at he
        cases he
      · intro _
        rw [hr, finishRefresh_ok hxc]
  · cases hx : rebuild_tags st.tags st.startag ([] : List Item) with
    | error e0 =>
      have hxc : rebuild_tags (clearTask st).tags (clearTask st).startag ([] : List Item) = .error e0 := hx
      constructor
      · intro e he
        rw [hr, finishRefresh_err hxc] at he
        simp only [Except.error.injEq, RefreshErr.unpack.injEq] at he
        subst he
        refine ⟨[], ht, hx, ?_, ?_, refresh_old_destroyed st w [] ht⟩
        · rw [hr, finishRefresh_err hxc]
        · rw [hr, finishRefresh_err hxc]
          rfl
      · intro hne2
        rw [hr, finishRefresh_err hxc] at hne2
        exact absurd rfl hne2
    | ok d =>
      have hxc : rebuild_tags (clearTask st).tags (clearTask st).startag ([] : List Item) = .ok d := hx
      constructor
      · intro e he
        rw [hr, finishRefresh_ok hxc] at he
        cases he
      · intro _
        rw [hr, finishRefresh_ok hxc]

/-- Witness for C8: a node with one fixed tag, one stale item and no
base refreshes to an unpack failure, its items already emptied, its
tagged map stale, its old item destroyed. -/
theorem C8_witness :
    ∃ ni, templateResult
        { base := none, args := [], tags := ["a"], startag := "", data := [],
          tagged := [("a", TagValue.item 8)], update_task := none, items := [8], parent := none } =
        .ok ni ∧
      rebuild_tags ["a"] "" ni = .error (.needMore 0) ∧
      (refresh
        { base := none, args := [], tags := ["a"], startag := "", data := [],
          tagged := [("a", TagValue.item 8)], update_task := none, items := [8], parent := none }
        { destroyed := [], log := [] }).2.1.items = ni ∧
      (refresh
        { base := none, args := [], tags := ["a"], startag := "", data := [],
          tagged := [("a", TagValue.item 8)], update_task := none, items := [8], parent := none }
        { destroyed := [], log := [] }).2.1.tagged = [("a", TagValue.item 8)] ∧
      (∀ i, i ∈
        ({ base := none, args := [], tags := ["a"], startag := "", data := [],
           tagged := [("a", TagValue.item 8)], update_task := none, items := [8],
           parent := none } : Node).items →
        i ∈ (refresh
          { base := none, args := [], tags := ["a"], startag := "", data := [],
            tagged := [("a", TagValue.item 8)], update_task := none, items := [8], parent := none }
          { destroyed := [], log := [] }).2.2.destroyed) :=
  (C8_refresh_unpack_inconsistency
    { base := none, args := [], tags := ["a"], startag := "", data := [],
      tagged := [("a", TagValue.item 8)], update_task := none, items := [8], parent := none }
    { destroyed := [], log := [] }).1 (.needMore 0) rfl

/-- C9: the destructor empties the keyword data, the tagged map and the
items reference, clears the pending task handle, and unschedules
exactly the pending task when there is one. -/
theorem C9_destroy_releases (st : Node) :
    (destroy st).1.data = [] ∧ (destroy st).1.tagged = [] ∧
    (destroy st).1.items = [] ∧ (destroy st).1.update_task = none ∧
    (destroy st).2 = st.update_task := by
  cases hu : st.update_task <;> simp [destroy, hu]

/-- C10 as frozen is false on the code: a refresh whose computed new
item list is empty need not complete successfully on a node with no
parent, since the tag rebuild can still raise; here a node with no base
and one fixed tag fails with an unpack error. -/
theorem C10_counterexample :
    (refresh
      { base := none, args := [], tags := ["a"], startag := "", data := [], tagged := [],
        update_task := none, items := [], parent := none }
      { destroyed := [], log := [] }).1 = .error (.unpack (.needMore 0)) := by
  rfl

/-- C10 (amended): when the computed new item list is empty the parent
is never accessed — the refresh outcome is identical for every parent
value, no insertion is issued, and the refresh never fails for lack of
a parent, though it may still raise an unpack error from the tag
rebuild; a failure for lack of a parent happens only when the new item
list is non-empty, and then only after the old items have been
destroyed and before the items field is replaced. -/
theorem C10_refresh_parent_access (st : Node) (w : World) :
    (∀ (h : templateResult st = .ok []) (p : Option Unit),
      refresh { st with parent := p } w =
        ((refresh st w).1, { (refresh st w).2.1 with parent := p }, (refresh st w).2.2) ∧
      (refresh st w).1 ≠ .error .noParent ∧
      (∀ its, Event.insert its ∉ (refresh st w).2.2.log.drop w.log.length)) ∧
    ((refresh st w).1 = .error .noParent →
      st.parent = none ∧
      (∃ ni, templateResult st = .ok ni ∧ ni ≠ []) ∧
      (∀ i ∈ st.items, i ∈ (refresh st w).2.2.destroyed) ∧
      (refresh st w).2.1.items = st.items) := by
  constructor
  · intro h p
    have hb1 : refresh st w = finishRefresh (clearTask st) [] (destroyOld st.items (logTemplate st w)) := by
      unfold refresh
      rw [h]
      simp
    have hb2 : refresh { st with parent := p } w =
        finishRefresh (clearTask { st with parent := p }) []
          (destroyOld st.items (logTemplate st w)) := by
      unfold refresh
      rw [show templateResult { st with parent := p } = Except.ok ([] : List Item) from h]
      simp
      rfl
    refine ⟨?_, ?_, ?_⟩
    · rw [hb1, hb2]
      cases hx : rebuild_tags st.tags st.startag ([] : List Item) with
      | error e =>
        have hxc : rebuild_tags (clearTask st).tags (clearTask st).startag ([] : List Item) = .error e := hx
        have hxp : rebuild_tags (clearTask { st with parent := p }).tags
            (clearTask { st with parent := p }).startag ([] : List Item) = .error e := hx
        rw [finishRefresh_err hxc, finishRefresh_err hxp]
        rfl
      | ok d =>
        have hxc : rebuild_tags (clearTask st).tags (clearTask st).startag ([] : List Item) = .ok d := hx
        have hxp : rebuild_tags (clearTask { st with parent := p }).tags
            (clearTask { st with parent := p }).startag ([] : List Item) = .ok d := hx
        rw [finishRefresh_ok hxc, finishRefresh_ok hxp]
        rfl
    · rw [hb1]
      cases hx : rebuild_tags st.tags st.startag ([] : List Item) with
      | error e =>
        have hxc : rebuild_tags (clearTask st).tags (clearTask st).startag ([] : List Item) = .error e := hx
        rw [finishRefresh_err hxc]
        simp
      | ok d =>
        have hxc : rebuild_tags (clearTask st).tags (clearTask st).startag ([] : List Item) = .ok d := hx
        rw [finishRefresh_ok hxc]
        simp
    · obtain ⟨pre, hpre, hw1⟩ := logTemplate_spec st w
      obtain ⟨ds, hlog, helems, _, _, _⟩ := destroyOld_spec st.items (logTemplate st w)
      have hwr : (refresh st w).2.2 = destroyOld st.items (logTemplate st w) := by
        rw [hb1, finishRefresh_world]
      have hdrop : (refresh st w).2.2.log.drop w.log.length = pre ++ ds := by
        rw [hwr, hlog, hw1]
        simp only [List.append_assoc]
        exact List.drop_left _ _
      intro its hmem
      rw [hdrop] at hmem
      rcases List.mem_append.mp hmem with h1 | h2
      · exact absurd (hpre _ h1) (by simp)
      · obtain ⟨j, _, _, hj⟩ := helems _ h2
        simp at hj
  · intro habs
    rcases refresh_cases st w with ⟨msg, ht, hr⟩ | ⟨ni, ht, hne, hp, hr⟩ |
      ⟨ni, ht, hne, hp, hr⟩ | ⟨ht, hr⟩
    · rw [hr] at habs
      simp at habs
    · refine ⟨hp, ⟨ni, ht, hne⟩, refresh_old_destroyed st w ni ht, ?_⟩
      rw [hr]
      rfl
    · exfalso
      cases hx : rebuild_tags st.tags st.startag ni with
      | error e =>
        have hxc : rebuild_tags (clearTask st).tags (clearTask st).startag ni = .error e := hx
        rw [hr, finishRefresh_err hxc] at habs
        simp at habs
      | ok d =>
        have hxc : rebuild_tags (clearTask st).tags (clearTask st).startag ni = .ok d := hx
        rw [hr, finishRefresh_ok hxc] at habs
        cases habs
    · exfalso
      cases hx : rebuild_tags st.tags st.startag ([] : List Item) with
      | error e =>
        have hxc : rebuild_tags (clearTask st).tags (clearTask st).startag ([] : List Item) = .error e := hx
        rw [hr, finishRefresh_err hxc] at habs
        simp at habs
      | ok d =>
        have hxc : rebuild_tags (clearTask st).tags (clearTask st).startag ([] : List Item) = .ok d := hx
        rw [hr, finishRefresh_ok hxc] at habs
        cases habs

/-- Witness for the amended C10: with an empty new item list a refresh
on a parentless node does not fail for lack of a parent, while a
template producing one item on a parentless node fails only after
destroying the old item and before replacing the items field. -/
theorem C10_witness :
    (refresh
      { base := none, args := [], tags := [], startag := "", data := [], tagged := [],
        update_task := none, items := [], parent := none }
      { destroyed := [], log := [] }).1 ≠ .error .noParent ∧
    (({ base := some (fun _a => .ok (fun _b => .ok [1])), args := [], tags := [], startag := "",
        data := [], tagged := [], update_task := none, items := [0],
        parent := none } : Node).parent = none ∧
     (∃ ni, templateResult
        { base := some (fun _a => .ok (fun _b => .ok [1])), args := [], tags := [], startag := "",
          data := [], tagged := [], update_task := none, items := [0], parent := none } =
        .ok ni ∧ ni ≠ []) ∧
     (∀ i, i ∈
       ({ base := some (fun _a => .ok (fun _b => .ok [1])), args := [], tags := [],
          startag := "", data := [], tagged := [], update_task := none, items := [0],
          parent := none } : Node).items →
       i ∈ (refresh
        { base := some (fun _a => .ok (fun _b => .ok [1])), args := [], tags := [], startag := "",
          data := [], tagged := [], update_task := none, items := [0], parent := none }
        { destroyed := [], log := [] }).2.2.destroyed) ∧
     (refresh
        { base := some (fun _a => .ok (fun _b => .ok [1])), args := [], tags := [], startag := "",
          data := [], tagged := [], update_task := none, items := [0], parent := none }
        { destroyed := [], log := [] }).2.1.items = [0]) :=
  ⟨((C10_refresh_parent_access
      { base := none, args := [], tags := [], startag := "", data := [], tagged := [],
        update_task := none, items := [], parent := none }
      { destroyed := [], log := [] }).1 rfl (some ())).2.1,
   (C10_refresh_parent_access
      { base := some (fun _a => .ok (fun _b => .ok [1])), args := [], tags := [], startag := "",
        data := [], tagged := [], update_task := none, items := [0], parent := none }
      { destroyed := [], log := [] }).2 rfl⟩

end DynTemplate
